import Mathlib

/-!
Shallow embedding of the concurrent streaming read path of the Notion
source plugin (`notion.go`, `metrics.go`).  Pure functions of the source
become Lean functions; the fetcher and the detail client are oracles
passed as arguments; the scheduler nondeterminism of the goroutine
fan-out is modelled by explicit event schedules validated against the
happens-before constraints that the source's synchronisation primitives
actually impose.
-/

namespace NotionSpec

/-- `engine.ObjectType` from the engine package: a string-typed tag.  The
five constants the source recognises are modelled as constructors and any
other string as `unknown`. -/
inductive ObjectType where
  | page
  | database
  | block
  | comment
  | user
  | unknown (s : String)
deriving DecidableEq, Repr

/-- `engine.ReadRequest`: the only field the source consults is `Types`. -/
structure ReadRequest where
  types : List ObjectType
deriving DecidableEq, Repr

/-- `NotionSourceConfig` (notion.go lines 23-52), restricted to the fields
the read path consults. -/
structure NotionSourceConfig where
  includeDatabases : Bool
  includePages : Bool
  includeBlocks : Bool
  includeComments : Bool
  includeUsers : Bool
  maxDepth : Nat
  pageSize : Nat
  maxConcurrent : Nat
deriving DecidableEq, Repr

/-- `DefaultNotionSourceConfig` (notion.go lines 91-113), restricted to the
modelled fields. -/
def defaultNotionSourceConfig : NotionSourceConfig :=
  { includeDatabases := true
    includePages := true
    includeBlocks := true
    includeComments := false
    includeUsers := false
    maxDepth := 3
    pageSize := 100
    maxConcurrent := 5 }

/-- `NotionSource`: the client pointer is modelled by whether it is non-nil. -/
structure NotionSource where
  clientPresent : Bool
  config : NotionSourceConfig
deriving DecidableEq, Repr

/-- `NotionSourceMetrics` (notion.go lines 75-88).  Counters are Go `int64`
values that are only ever incremented, far from overflow, so they are
modelled as `Nat`.  Times are modelled as `Nat` ticks; `EndTime *time.Time`
becomes `Option Nat`. -/
structure NotionSourceMetrics where
  objectsRead : Nat
  pagesRead : Nat
  blocksRead : Nat
  commentsRead : Nat
  databasesRead : Nat
  usersRead : Nat
  requestsMade : Nat
  errorsEncountered : Nat
  totalDuration : Nat
  startTime : Nat
  endTime : Option Nat
deriving DecidableEq, Repr

/-- Metrics of a freshly constructed source (`NewNotionSource`,
notion.go lines 116-124): all counters zero, `StartTime` set to now. -/
def newMetrics (now : Nat) : NotionSourceMetrics :=
  { objectsRead := 0, pagesRead := 0, blocksRead := 0, commentsRead := 0
    databasesRead := 0, usersRead := 0, requestsMade := 0
    errorsEncountered := 0, totalDuration := 0, startTime := now
    endTime := none }

/-- `incrementPageCount` (metrics helpers, lines 28-33): `PagesRead++` and
`ObjectsRead++` under the metrics mutex. -/
def incrementPageCount (m : NotionSourceMetrics) : NotionSourceMetrics :=
  { m with pagesRead := m.pagesRead + 1, objectsRead := m.objectsRead + 1 }

/-- `incrementBlockCount` (lines 35-40). -/
def incrementBlockCount (m : NotionSourceMetrics) : NotionSourceMetrics :=
  { m with blocksRead := m.blocksRead + 1, objectsRead := m.objectsRead + 1 }

/-- `incrementCommentCount` (lines 42-47). -/
def incrementCommentCount (m : NotionSourceMetrics) : NotionSourceMetrics :=
  { m with commentsRead := m.commentsRead + 1, objectsRead := m.objectsRead + 1 }

/-- `incrementDatabaseCount` (lines 49-54). -/
def incrementDatabaseCount (m : NotionSourceMetrics) : NotionSourceMetrics :=
  { m with databasesRead := m.databasesRead + 1, objectsRead := m.objectsRead + 1 }

/-- `incrementUserCount` (lines 56-61). -/
def incrementUserCount (m : NotionSourceMetrics) : NotionSourceMetrics :=
  { m with usersRead := m.usersRead + 1, objectsRead := m.objectsRead + 1 }

/-- `incrementRequestCount` (lines 63-67). -/
def incrementRequestCount (m : NotionSourceMetrics) : NotionSourceMetrics :=
  { m with requestsMade := m.requestsMade + 1 }

/-- `incrementErrorCount` (lines 69-73). -/
def incrementErrorCount (m : NotionSourceMetrics) : NotionSourceMetrics :=
  { m with errorsEncountered := m.errorsEncountered + 1 }

/-- `updateEndTime` (lines 75-81): unconditionally stores the current time
in `EndTime` and recomputes `TotalDuration = now - StartTime`.  There is no
guard on `EndTime` already being set. -/
def updateEndTime (m : NotionSourceMetrics) (now : Nat) : NotionSourceMetrics :=
  { m with endTime := some now, totalDuration := now - m.startTime }

/-- `Close` (notion.go lines 192-195): calls `updateEndTime` and returns nil. -/
def CloseSource (m : NotionSourceMetrics) (now : Nat) : NotionSourceMetrics :=
  updateEndTime m now

/-- `SupportsType` (notion.go lines 162-170): the switch lists exactly the
five known kinds; the default branch returns false. -/
def supportsType : ObjectType → Bool
  | .page => true
  | .database => true
  | .block => true
  | .comment => true
  | .user => true
  | .unknown _ => false

/-- `Validate` (notion.go lines 146-159): a nil client is an error; then
every requested type is checked with `SupportsType` in order, the first
unsupported one producing the error; an empty `Types` loop body never runs
and validation succeeds. -/
def Validate (ns : NotionSource) (req : ReadRequest) : Option String :=
  if ns.clientPresent = false then some "notion client is required"
  else
    match req.types.find? (fun t => !supportsType t) with
    | some _ => some "object type is not supported by Notion source"
    | none => none

/-- `Read` (notion.go lines 126-143): on a validation error it returns
`(nil, err)` before the output channel is made and before the background
goroutine starts; otherwise it creates the channel with buffer
`PageSize * MaxConcurrent * 10`, launches the background goroutine and
returns the channel with a nil error.  The model returns the created
channel's buffer capacity as the stream handle. -/
def Read (ns : NotionSource) (req : ReadRequest) : Except String Nat :=
  match Validate ns req with
  | some e => .error ("invalid read request: " ++ e)
  | none => .ok (ns.config.pageSize * ns.config.maxConcurrent * 10)

/-- The per-kind worker groups `readData` (notion.go lines 200-226) launches:
the range-over-`req.Types` loop has switch cases only for `page` (guarded by
`IncludePages`) and `database` (guarded by `IncludeDatabases`); every other
requested kind falls through the switch and launches nothing. -/
def launchedGroups (cfg : NotionSourceConfig) (types : List ObjectType) :
    List ObjectType :=
  types.filter fun t =>
    match t with
    | .page => cfg.includePages
    | .database => cfg.includeDatabases
    | _ => false

/-! ### Data records and the output item envelope -/

/-- `types.Page`, reduced to the identifier the read path uses. -/
structure Page where
  id : String
deriving DecidableEq, Repr

/-- `types.Block`, reduced to the identifier the read path uses. -/
structure Block where
  id : String
deriving DecidableEq, Repr

/-- `types.Database`, reduced to the identifier the read path uses. -/
structure Database where
  id : String
deriving DecidableEq, Repr

/-- `client.GetPageResult`: the full page plus its fetched blocks. -/
structure GetPageResult where
  page : Page
  blocks : List Block
deriving DecidableEq, Repr

/-- A client/fetcher result with Go's `result.IsError()` discrimination. -/
inductive GoResult (α : Type) where
  | ok (data : α)
  | fail
deriving DecidableEq, Repr

/-- One search stream element's payload: `result.Data.Page` and
`result.Data.Database` may each be nil. -/
structure SearchData where
  page : Option Page
  database : Option Database
deriving DecidableEq, Repr

/-- `engine.DataItemContainer`, reduced to the fields the conversion
functions compute from their record argument: the id, the kind tag and the
block's `parent_id` property. -/
structure DataItemContainer where
  id : String
  type : ObjectType
  parentID : Option String
deriving DecidableEq, Repr

/-- `convertPageToDataItem` (notion.go lines 342-374). -/
def convertPageToDataItem (r : GetPageResult) : DataItemContainer :=
  { id := r.page.id, type := .page, parentID := none }

/-- `convertBlockToDataItem` (notion.go lines 376-407). -/
def convertBlockToDataItem (b : Block) (parentID : String) : DataItemContainer :=
  { id := b.id, type := .block, parentID := some parentID }

/-- `convertDatabaseToDataItem` (notion.go lines 409-440). -/
def convertDatabaseToDataItem (d : Database) : DataItemContainer :=
  { id := d.id, type := .database, parentID := none }

/-! ### Functional execution model of the read pipeline

The concurrent pipeline is interpreted as a function from the fetcher's
result sequences and scheduling oracles to the final metrics and the list
of items delivered on the output channel.  Each `select` between a channel
send and `ctx.Done()` is decided by a Boolean oracle (`true` = the send
wins); the non-blocking `ctx.Done()` check before the detail fetch is a
Boolean oracle per worker.  The page-worker fan-out is serialised: every
counter increment and every delivery is one atomic step, so the completed
run's counts and the delivered multiset do not depend on the interleaving,
which is what the counting claims are about.  The per-call semaphore of
`processPageConcurrently` never blocks (each call makes a fresh channel of
capacity `MaxConcurrent`), so it does not affect the data flow and is
modelled separately as a schedule constraint. -/

/-- The block loop of `processPageConcurrently` (notion.go lines 296-306):
each block is converted and sent with a `select` against `ctx.Done()`; a
successful send increments the block counter, a lost select returns from
the worker, dropping the remaining blocks. -/
def sendBlocksRun (parentID : String) (blocks : List Block)
    (sendOks : List Bool) (m : NotionSourceMetrics) :
    NotionSourceMetrics × List DataItemContainer :=
  match blocks with
  | [] => (m, [])
  | b :: bs =>
    if sendOks.getD 0 true then
      let r := sendBlocksRun parentID bs (sendOks.drop 1) (incrementBlockCount m)
      (r.1, convertBlockToDataItem b parentID :: r.2)
    else (m, [])

/-- `processPageConcurrently` (notion.go lines 258-307) minus the gate:
check cancellation non-blockingly (a cancelled worker returns before any
request is issued); count the request; issue the detail fetch (`detail`
oracle); a failed fetch counts one error and returns; otherwise convert,
send with a select (a lost select returns without incrementing), increment
the page counter on success, then send the blocks when `IncludeBlocks` is
set and there are any. -/
def processPageRun (cfg : NotionSourceConfig)
    (detail : Page → GoResult GetPageResult) (cancelled : Bool)
    (sendOks : List Bool) (page : Page) (m : NotionSourceMetrics) :
    NotionSourceMetrics × List DataItemContainer :=
  if cancelled then (m, [])
  else
    let m1 := incrementRequestCount m
    match detail page with
    | .fail => (incrementErrorCount m1, [])
    | .ok r =>
      if sendOks.getD 0 true then
        let m2 := incrementPageCount m1
        let item := convertPageToDataItem r
        if cfg.includeBlocks && !r.blocks.isEmpty then
          let br := sendBlocksRun page.id r.blocks (sendOks.drop 1) m2
          (br.1, item :: br.2)
        else (m2, [item])
      else (m1, [])

/-- The result loop of `searchPages` (notion.go lines 244-255): an error
result counts one error and continues; a result whose `Data.Page` is nil is
skipped; otherwise a page worker runs (`go processPageConcurrently`).  The
loop consumes every search hit regardless of worker outcomes; one scheduling
oracle pair is popped per hit. -/
def searchPagesLoop (cfg : NotionSourceConfig)
    (detail : Page → GoResult GetPageResult)
    (hits : List (GoResult SearchData)) (cancels : List Bool)
    (sendOracles : List (List Bool)) (m : NotionSourceMetrics) :
    NotionSourceMetrics × List DataItemContainer :=
  match hits with
  | [] => (m, [])
  | .fail :: rest =>
    searchPagesLoop cfg detail rest (cancels.drop 1) (sendOracles.drop 1)
      (incrementErrorCount m)
  | .ok d :: rest =>
    match d.page with
    | none => searchPagesLoop cfg detail rest (cancels.drop 1) (sendOracles.drop 1) m
    | some p =>
      let w := processPageRun cfg detail (cancels.getD 0 false)
        (sendOracles.getD 0 []) p m
      let r := searchPagesLoop cfg detail rest (cancels.drop 1)
        (sendOracles.drop 1) w.1
      (r.1, w.2 ++ r.2)

/-- `searchPages` (notion.go lines 229-255): one request is counted for the
search stream itself, then the result loop runs. -/
def searchPagesRun (cfg : NotionSourceConfig)
    (detail : Page → GoResult GetPageResult)
    (hits : List (GoResult SearchData)) (cancels : List Bool)
    (sendOracles : List (List Bool)) (m : NotionSourceMetrics) :
    NotionSourceMetrics × List DataItemContainer :=
  searchPagesLoop cfg detail hits cancels sendOracles (incrementRequestCount m)

/-- The result loop of `readDatabases` (notion.go lines 323-338): an error
result counts one error and continues; a result whose `Data.Database` is nil
is skipped; otherwise the database is converted and sent with a select —
a successful send increments the database counter, a lost select returns
from `readDatabases`, abandoning the remaining results. -/
def readDatabasesLoop (hits : List (GoResult SearchData))
    (sendOks : List Bool) (m : NotionSourceMetrics) :
    NotionSourceMetrics × List DataItemContainer :=
  match hits with
  | [] => (m, [])
  | .fail :: rest => readDatabasesLoop rest sendOks (incrementErrorCount m)
  | .ok d :: rest =>
    match d.database with
    | none => readDatabasesLoop rest sendOks m
    | some db =>
      if sendOks.getD 0 true then
        let r := readDatabasesLoop rest (sendOks.drop 1) (incrementDatabaseCount m)
        (r.1, convertDatabaseToDataItem db :: r.2)
      else (m, [])

/-- `readDatabases` (notion.go lines 310-339): one request for the search
stream, then the loop. -/
def readDatabasesRun (hits : List (GoResult SearchData)) (sendOks : List Bool)
    (m : NotionSourceMetrics) : NotionSourceMetrics × List DataItemContainer :=
  readDatabasesLoop hits sendOks (incrementRequestCount m)

/-- The external fetcher's behaviour for one read operation: each group's
own `Stream` call replays the same result sequence, and the detail client
is a function of the page. -/
structure FetchEnv where
  pageHits : List (GoResult SearchData)
  dbHits : List (GoResult SearchData)
  detail : Page → GoResult GetPageResult

/-- `readData` (notion.go lines 200-226): one worker group per requested
type, launched only for `page` when `IncludePages` and `database` when
`IncludeDatabases`; other kinds fall through the switch.  The groups are
serialised; items of all groups appear on the one output channel. -/
def readDataRun (cfg : NotionSourceConfig) (types : List ObjectType)
    (env : FetchEnv) (cancels : List Bool) (sendOracles : List (List Bool))
    (dbSendOks : List Bool) (m : NotionSourceMetrics) :
    NotionSourceMetrics × List DataItemContainer :=
  match types with
  | [] => (m, [])
  | t :: rest =>
    let g : NotionSourceMetrics × List DataItemContainer :=
      match t with
      | .page =>
        if cfg.includePages then
          searchPagesRun cfg env.detail env.pageHits cancels sendOracles m
        else (m, [])
      | .database =>
        if cfg.includeDatabases then
          readDatabasesRun env.dbHits dbSendOks m
        else (m, [])
      | _ => (m, [])
    let r := readDataRun cfg rest env cancels sendOracles dbSendOks g.1
    (r.1, g.2 ++ r.2)

/-- Number of delivered items carrying a given kind tag. -/
def countKind (items : List DataItemContainer) (k : ObjectType) : Nat :=
  (items.filter (fun it => it.type = k)).length

@[simp] theorem countKind_nil (k : ObjectType) : countKind [] k = 0 := rfl

@[simp] theorem countKind_cons (x : DataItemContainer) (xs : List DataItemContainer)
    (k : ObjectType) :
    countKind (x :: xs) k = (if x.type = k then 1 else 0) + countKind xs k := by
  simp only [countKind, List.filter_cons]
  split
  · simp_all
    omega
  · simp_all

@[simp] theorem countKind_append (xs ys : List DataItemContainer) (k : ObjectType) :
    countKind (xs ++ ys) k = countKind xs k + countKind ys k := by
  simp [countKind, List.filter_append]

/-- Aggregate of the five per-kind success counters. -/
def sumRead (m : NotionSourceMetrics) : Nat :=
  m.pagesRead + m.blocksRead + m.commentsRead + m.databasesRead + m.usersRead

/-- The bookkeeping relation between the metrics before and after a pipeline
fragment that delivered `items`: every per-kind counter advanced by exactly
the number of delivered items of its kind, `ObjectsRead` and the per-kind
sum advanced by the number of delivered items. -/
def countersOK (m m' : NotionSourceMetrics) (items : List DataItemContainer) : Prop :=
  m'.pagesRead = m.pagesRead + countKind items .page ∧
  m'.blocksRead = m.blocksRead + countKind items .block ∧
  m'.commentsRead = m.commentsRead + countKind items .comment ∧
  m'.databasesRead = m.databasesRead + countKind items .database ∧
  m'.usersRead = m.usersRead + countKind items .user ∧
  m'.objectsRead = m.objectsRead + items.length ∧
  sumRead m' = sumRead m + items.length

theorem countersOK_rfl (m : NotionSourceMetrics) : countersOK m m [] := by
  simp [countersOK]

theorem countersOK_trans {m₁ m₂ m₃ : NotionSourceMetrics}
    {xs ys : List DataItemContainer} (h₁ : countersOK m₁ m₂ xs)
    (h₂ : countersOK m₂ m₃ ys) : countersOK m₁ m₃ (xs ++ ys) := by
  simp only [countersOK, countKind_append, List.length_append] at *
  omega

theorem countersOK_error (m : NotionSourceMetrics) :
    countersOK m (incrementErrorCount m) [] := by
  simp [countersOK, incrementErrorCount, sumRead]

theorem countersOK_request (m : NotionSourceMetrics) :
    countersOK m (incrementRequestCount m) [] := by
  simp [countersOK, incrementRequestCount, sumRead]

theorem sendBlocksRun_counters (pid : String) (blocks : List Block) :
    ∀ (sendOks : List Bool) (m : NotionSourceMetrics),
    countersOK m (sendBlocksRun pid blocks sendOks m).1
      (sendBlocksRun pid blocks sendOks m).2 := by
  induction blocks with
  | nil =>
    intro sendOks m
    exact countersOK_rfl m
  | cons b bs ih =>
    intro sendOks m
    simp only [sendBlocksRun]
    split
    · have h := ih (sendOks.drop 1) (incrementBlockCount m)
      simp [countersOK, convertBlockToDataItem, incrementBlockCount,
        sumRead] at h ⊢
      omega
    · exact countersOK_rfl m

theorem processPageRun_counters (cfg : NotionSourceConfig)
    (detail : Page → GoResult GetPageResult) (cancelled : Bool)
    (sendOks : List Bool) (p : Page) (m : NotionSourceMetrics) :
    countersOK m (processPageRun cfg detail cancelled sendOks p m).1
      (processPageRun cfg detail cancelled sendOks p m).2 := by
  unfold processPageRun
  split
  · exact countersOK_rfl m
  · cases hd : detail p with
    | fail =>
      simp [countersOK, incrementErrorCount, incrementRequestCount, sumRead]
    | ok r =>
      simp only
      split
      · split
        · have h := sendBlocksRun_counters p.id r.blocks (sendOks.drop 1)
            (incrementPageCount (incrementRequestCount m))
          simp [countersOK, convertPageToDataItem, incrementPageCount,
            incrementRequestCount, sumRead] at h ⊢
          omega
        · simp [countersOK, incrementPageCount, incrementRequestCount,
            convertPageToDataItem, sumRead]
          omega
      · exact countersOK_request m

theorem searchPagesLoop_counters (cfg : NotionSourceConfig)
    (detail : Page → GoResult GetPageResult)
    (hits : List (GoResult SearchData)) :
    ∀ (cancels : List Bool) (sendOracles : List (List Bool))
      (m : NotionSourceMetrics),
    countersOK m (searchPagesLoop cfg detail hits cancels sendOracles m).1
      (searchPagesLoop cfg detail hits cancels sendOracles m).2 := by
  induction hits with
  | nil =>
    intro cancels sendOracles m
    exact countersOK_rfl m
  | cons h rest ih =>
    intro cancels sendOracles m
    cases h with
    | fail =>
      have h1 := countersOK_trans (countersOK_error m)
        (ih (cancels.drop 1) (sendOracles.drop 1) (incrementErrorCount m))
      simpa [searchPagesLoop] using h1
    | ok d =>
      cases hp : d.page with
      | none =>
        have h1 := ih (cancels.drop 1) (sendOracles.drop 1) m
        simpa [searchPagesLoop, hp] using h1
      | some p =>
        have hw := processPageRun_counters cfg detail (cancels.getD 0 false)
          (sendOracles.getD 0 []) p m
        have hr := ih (cancels.drop 1) (sendOracles.drop 1)
          (processPageRun cfg detail (cancels.getD 0 false)
            (sendOracles.getD 0 []) p m).1
        simpa [searchPagesLoop, hp] using countersOK_trans hw hr

theorem readDatabasesLoop_counters (hits : List (GoResult SearchData)) :
    ∀ (sendOks : List Bool) (m : NotionSourceMetrics),
    countersOK m (readDatabasesLoop hits sendOks m).1
      (readDatabasesLoop hits sendOks m).2 := by
  induction hits with
  | nil =>
    intro sendOks m
    exact countersOK_rfl m
  | cons h rest ih =>
    intro sendOks m
    cases h with
    | fail =>
      have h1 := countersOK_trans (countersOK_error m)
        (ih sendOks (incrementErrorCount m))
      simpa [readDatabasesLoop] using h1
    | ok d =>
      cases hd : d.database with
      | none =>
        have h1 := ih sendOks m
        simpa [readDatabasesLoop, hd] using h1
      | some db =>
        simp only [readDatabasesLoop, hd]
        split
        · have h := ih (sendOks.drop 1) (incrementDatabaseCount m)
          simp [countersOK, convertDatabaseToDataItem, incrementDatabaseCount,
            sumRead] at h ⊢
          omega
        · exact countersOK_rfl m

theorem readDataRun_counters (cfg : NotionSourceConfig)
    (types : List ObjectType) (env : FetchEnv) :
    ∀ (cancels : List Bool) (sendOracles : List (List Bool))
      (dbSendOks : List Bool) (m : NotionSourceMetrics),
    countersOK m
      (readDataRun cfg types env cancels sendOracles dbSendOks m).1
      (readDataRun cfg types env cancels sendOracles dbSendOks m).2 := by
  induction types with
  | nil =>
    intro _ _ _ m
    exact countersOK_rfl m
  | cons t rest ih =>
    intro cancels sendOracles dbSendOks m
    have hsp : ∀ m' : NotionSourceMetrics, countersOK m'
        (searchPagesRun cfg env.detail env.pageHits cancels sendOracles m').1
        (searchPagesRun cfg env.detail env.pageHits cancels sendOracles m').2 := by
      intro m'
      have h1 := countersOK_trans (countersOK_request m')
        (searchPagesLoop_counters cfg env.detail env.pageHits cancels
          sendOracles (incrementRequestCount m'))
      simpa [searchPagesRun] using h1
    have hdb : ∀ m' : NotionSourceMetrics, countersOK m'
        (readDatabasesRun env.dbHits dbSendOks m').1
        (readDatabasesRun env.dbHits dbSendOks m').2 := by
      intro m'
      have h1 := countersOK_trans (countersOK_request m')
        (readDatabasesLoop_counters env.dbHits dbSendOks
          (incrementRequestCount m'))
      simpa [readDatabasesRun] using h1
    cases t with
    | page =>
      cases hp : cfg.includePages with
      | true =>
        have h1 := countersOK_trans (hsp m) (ih cancels sendOracles dbSendOks _)
        simpa [readDataRun, hp] using h1
      | false =>
        have h1 := ih cancels sendOracles dbSendOks m
        simpa [readDataRun, hp] using h1
    | database =>
      cases hp : cfg.includeDatabases with
      | true =>
        have h1 := countersOK_trans (hdb m) (ih cancels sendOracles dbSendOks _)
        simpa [readDataRun, hp] using h1
      | false =>
        have h1 := ih cancels sendOracles dbSendOks m
        simpa [readDataRun, hp] using h1
    | block =>
      have h1 := ih cancels sendOracles dbSendOks m
      simpa [readDataRun] using h1
    | comment =>
      have h1 := ih cancels sendOracles dbSendOks m
      simpa [readDataRun] using h1
    | user =>
      have h1 := ih cancels sendOracles dbSendOks m
      simpa [readDataRun] using h1
    | unknown s =>
      have h1 := ih cancels sendOracles dbSendOks m
      simpa [readDataRun] using h1

/-! ### Expected per-group tallies, as functions of the fetcher input -/

/-- Per-record failures a page group meets on the given hits: error results
of the search stream plus failed detail fetches of processed pages. -/
def pageGroupErrors (detail : Page → GoResult GetPageResult) :
    List (GoResult SearchData) → Nat
  | [] => 0
  | .fail :: rest => 1 + pageGroupErrors detail rest
  | .ok d :: rest =>
    (match d.page with
     | some p => (match detail p with | .fail => 1 | .ok _ => 0)
     | none => 0) + pageGroupErrors detail rest

/-- Page records of the hits whose detail fetch succeeds. -/
def pageGroupSuccesses (detail : Page → GoResult GetPageResult) :
    List (GoResult SearchData) → Nat
  | [] => 0
  | .fail :: rest => pageGroupSuccesses detail rest
  | .ok d :: rest =>
    (match d.page with
     | some p => (match detail p with | .fail => 0 | .ok _ => 1)
     | none => 0) + pageGroupSuccesses detail rest

/-- Error results among a database group's search hits. -/
def dbGroupErrors : List (GoResult SearchData) → Nat
  | [] => 0
  | .fail :: rest => 1 + dbGroupErrors rest
  | .ok _ :: rest => dbGroupErrors rest

/-- Database records among a database group's search hits. -/
def dbGroupSuccesses : List (GoResult SearchData) → Nat
  | [] => 0
  | .fail :: rest => dbGroupSuccesses rest
  | .ok d :: rest => (if d.database.isSome then 1 else 0) + dbGroupSuccesses rest

/-- Per-record failures met by the group launched for one requested kind. -/
def groupErrors (cfg : NotionSourceConfig) (env : FetchEnv) : ObjectType → Nat
  | .page => if cfg.includePages then pageGroupErrors env.detail env.pageHits else 0
  | .database => if cfg.includeDatabases then dbGroupErrors env.dbHits else 0
  | _ => 0

/-- Page items the group launched for one requested kind delivers. -/
def groupPageItems (cfg : NotionSourceConfig) (env : FetchEnv) : ObjectType → Nat
  | .page => if cfg.includePages then pageGroupSuccesses env.detail env.pageHits else 0
  | _ => 0

/-- Database items the group launched for one requested kind delivers. -/
def groupDbItems (cfg : NotionSourceConfig) (env : FetchEnv) : ObjectType → Nat
  | .database => if cfg.includeDatabases then dbGroupSuccesses env.dbHits else 0
  | _ => 0

/-- Per-record failures met by a whole read operation. -/
def expectedErrors (cfg : NotionSourceConfig) (env : FetchEnv)
    (types : List ObjectType) : Nat :=
  (types.map (groupErrors cfg env)).sum

/-- Page items a whole uncancelled read operation delivers. -/
def expectedPageItems (cfg : NotionSourceConfig) (env : FetchEnv)
    (types : List ObjectType) : Nat :=
  (types.map (groupPageItems cfg env)).sum

/-- Database items a whole uncancelled read operation delivers. -/
def expectedDbItems (cfg : NotionSourceConfig) (env : FetchEnv)
    (types : List ObjectType) : Nat :=
  (types.map (groupDbItems cfg env)).sum

/-- Relation used to settle C4: the error counter advanced by `errs`, and
the delivered items contain `pages` page items and `dbs` database items. -/
def errorsOK (m m' : NotionSourceMetrics) (items : List DataItemContainer)
    (errs pages dbs : Nat) : Prop :=
  m'.errorsEncountered = m.errorsEncountered + errs ∧
  countKind items .page = pages ∧
  countKind items .database = dbs

theorem errorsOK_trans {m₁ m₂ m₃ : NotionSourceMetrics}
    {xs ys : List DataItemContainer} {e₁ p₁ d₁ e₂ p₂ d₂ : Nat}
    (h₁ : errorsOK m₁ m₂ xs e₁ p₁ d₁) (h₂ : errorsOK m₂ m₃ ys e₂ p₂ d₂) :
    errorsOK m₁ m₃ (xs ++ ys) (e₁ + e₂) (p₁ + p₂) (d₁ + d₂) := by
  simp only [errorsOK, countKind_append] at *
  omega

theorem errorsOK_rfl (m : NotionSourceMetrics) : errorsOK m m [] 0 0 0 := by
  simp [errorsOK]

theorem sendBlocksRun_errors (pid : String) (blocks : List Block)
    (m : NotionSourceMetrics) :
    errorsOK m (sendBlocksRun pid blocks [] m).1
      (sendBlocksRun pid blocks [] m).2 0 0 0 := by
  induction blocks generalizing m with
  | nil => exact errorsOK_rfl m
  | cons b bs ih =>
    have h := ih (incrementBlockCount m)
    simp [sendBlocksRun, errorsOK, convertBlockToDataItem,
      incrementBlockCount] at h ⊢
    omega

theorem processPageRun_errors (cfg : NotionSourceConfig)
    (detail : Page → GoResult GetPageResult) (p : Page)
    (m : NotionSourceMetrics) :
    errorsOK m (processPageRun cfg detail false [] p m).1
      (processPageRun cfg detail false [] p m).2
      (match detail p with | .fail => 1 | .ok _ => 0)
      (match detail p with | .fail => 0 | .ok _ => 1) 0 := by
  cases hd : detail p with
  | fail =>
    simp [processPageRun, hd, errorsOK, incrementErrorCount,
      incrementRequestCount]
  | ok r =>
    by_cases hb : (cfg.includeBlocks && !r.blocks.isEmpty) = true
    · have h := sendBlocksRun_errors p.id r.blocks
        (incrementPageCount (incrementRequestCount m))
      simp [processPageRun, hd, hb, errorsOK, convertPageToDataItem,
        incrementPageCount, incrementRequestCount] at h ⊢
      omega
    · simp [processPageRun, hd, hb, errorsOK, convertPageToDataItem,
        incrementPageCount, incrementRequestCount]

theorem searchPagesLoop_errors (cfg : NotionSourceConfig)
    (detail : Page → GoResult GetPageResult)
    (hits : List (GoResult SearchData)) (m : NotionSourceMetrics) :
    errorsOK m (searchPagesLoop cfg detail hits [] [] m).1
      (searchPagesLoop cfg detail hits [] [] m).2
      (pageGroupErrors detail hits) (pageGroupSuccesses detail hits) 0 := by
  induction hits generalizing m with
  | nil => exact errorsOK_rfl m
  | cons h rest ih =>
    cases h with
    | fail =>
      have h1 := ih (incrementErrorCount m)
      simp [searchPagesLoop, errorsOK, incrementErrorCount,
        pageGroupErrors, pageGroupSuccesses] at h1 ⊢
      omega
    | ok d =>
      cases hp : d.page with
      | none =>
        have h1 := ih m
        simp [searchPagesLoop, hp, errorsOK, pageGroupErrors,
          pageGroupSuccesses] at h1 ⊢
        omega
      | some p =>
        have hw := processPageRun_errors cfg detail p m
        have hr := ih (processPageRun cfg detail false [] p m).1
        have h1 := errorsOK_trans hw hr
        cases hd : detail p with
        | fail =>
          simp [searchPagesLoop, hp, hd, errorsOK, pageGroupErrors,
            pageGroupSuccesses] at h1 ⊢
          omega
        | ok r =>
          simp [searchPagesLoop, hp, hd, errorsOK, pageGroupErrors,
            pageGroupSuccesses] at h1 ⊢
          omega

theorem readDatabasesLoop_errors (hits : List (GoResult SearchData))
    (m : NotionSourceMetrics) :
    errorsOK m (readDatabasesLoop hits [] m).1 (readDatabasesLoop hits [] m).2
      (dbGroupErrors hits) 0 (dbGroupSuccesses hits) := by
  induction hits generalizing m with
  | nil => exact errorsOK_rfl m
  | cons h rest ih =>
    cases h with
    | fail =>
      have h1 := ih (incrementErrorCount m)
      simp [readDatabasesLoop, errorsOK, incrementErrorCount,
        dbGroupErrors, dbGroupSuccesses] at h1 ⊢
      omega
    | ok d =>
      cases hd : d.database with
      | none =>
        have h1 := ih m
        simp [readDatabasesLoop, hd, errorsOK, dbGroupErrors,
          dbGroupSuccesses] at h1 ⊢
        omega
      | some db =>
        have h1 := ih (incrementDatabaseCount m)
        simp [readDatabasesLoop, hd, errorsOK, dbGroupErrors, dbGroupSuccesses,
          incrementDatabaseCount, convertDatabaseToDataItem] at h1 ⊢
        omega

theorem readDataRun_errors (cfg : NotionSourceConfig) (env : FetchEnv)
    (types : List ObjectType) (m : NotionSourceMetrics) :
    errorsOK m (readDataRun cfg types env [] [] [] m).1
      (readDataRun cfg types env [] [] [] m).2
      (expectedErrors cfg env types) (expectedPageItems cfg env types)
      (expectedDbItems cfg env types) := by
  induction types generalizing m with
  | nil => exact errorsOK_rfl m
  | cons t rest ih =>
    have hsp : ∀ m' : NotionSourceMetrics, errorsOK m'
        (searchPagesRun cfg env.detail env.pageHits [] [] m').1
        (searchPagesRun cfg env.detail env.pageHits [] [] m').2
        (pageGroupErrors env.detail env.pageHits)
        (pageGroupSuccesses env.detail env.pageHits) 0 := by
      intro m'
      have h1 := searchPagesLoop_errors cfg env.detail env.pageHits
        (incrementRequestCount m')
      simp only [searchPagesRun]
      simp [errorsOK, incrementRequestCount] at h1 ⊢
      omega
    have hdb : ∀ m' : NotionSourceMetrics, errorsOK m'
        (readDatabasesRun env.dbHits [] m').1
        (readDatabasesRun env.dbHits [] m').2
        (dbGroupErrors env.dbHits) 0 (dbGroupSuccesses env.dbHits) := by
      intro m'
      have h1 := readDatabasesLoop_errors env.dbHits (incrementRequestCount m')
      simp only [readDatabasesRun]
      simp [errorsOK, incrementRequestCount] at h1 ⊢
      omega
    cases t with
    | page =>
      cases hp : cfg.includePages with
      | true =>
        have h1 := errorsOK_trans (hsp m) (ih _)
        simp [readDataRun, hp, expectedErrors, expectedPageItems,
          expectedDbItems, groupErrors, groupPageItems, groupDbItems,
          errorsOK] at h1 ⊢
        omega
      | false =>
        have h1 := ih m
        simp [readDataRun, hp, expectedErrors, expectedPageItems,
          expectedDbItems, groupErrors, groupPageItems, groupDbItems,
          errorsOK] at h1 ⊢
        omega
    | database =>
      cases hp : cfg.includeDatabases with
      | true =>
        have h1 := errorsOK_trans (hdb m) (ih _)
        simp [readDataRun, hp, expectedErrors, expectedPageItems,
          expectedDbItems, groupErrors, groupPageItems, groupDbItems,
          errorsOK] at h1 ⊢
        omega
      | false =>
        have h1 := ih m
        simp [readDataRun, hp, expectedErrors, expectedPageItems,
          expectedDbItems, groupErrors, groupPageItems, groupDbItems,
          errorsOK] at h1 ⊢
        omega
    | block =>
      have h1 := ih m
      simp [readDataRun, expectedErrors, expectedPageItems, expectedDbItems,
        groupErrors, groupPageItems, groupDbItems, errorsOK] at h1 ⊢
      omega
    | comment =>
      have h1 := ih m
      simp [readDataRun, expectedErrors, expectedPageItems, expectedDbItems,
        groupErrors, groupPageItems, groupDbItems, errorsOK] at h1 ⊢
      omega
    | user =>
      have h1 := ih m
      simp [readDataRun, expectedErrors, expectedPageItems, expectedDbItems,
        groupErrors, groupPageItems, groupDbItems, errorsOK] at h1 ⊢
      omega
    | unknown s =>
      have h1 := ih m
      simp [readDataRun, expectedErrors, expectedPageItems, expectedDbItems,
        groupErrors, groupPageItems, groupDbItems, errorsOK] at h1 ⊢
      omega

/-! ### Interleaving model of the close-versus-send race (claim C1)

Events of one read operation with one per-kind group (pages) and `n` page
hits.  `spawn i` is the `go processPageConcurrently` statement for hit `i`
inside the `searchPages` result loop (notion.go line 252); `sDone` is
`searchPages` returning, which via `wg.Done`, `wg.Wait` (line 225) and the
deferred `updateEndTime` leads to the deferred `close(results)` (line 137),
event `closeCh`; `wFetch i` and `wSend i` are worker i's detail fetch and
its send on `results` (lines 278 and 289).  A schedule is valid when it is
a permutation of these events that respects exactly the happens-before
edges the source's synchronisation creates: program order inside
`searchPages`, `go` before the spawned goroutine's first step, program
order inside the worker, and `searchPages` returning before the close.
There is no edge from `wSend i` to `closeCh`, because nothing joins the
spawned workers: `readData`'s WaitGroup counts only the per-kind group
goroutines. -/
inductive REvent where
  | spawn (i : Nat)
  | sDone
  | closeCh
  | wFetch (i : Nat)
  | wSend (i : Nat)
deriving DecidableEq, Repr

/-- All events of a one-group read operation with `n` page hits. -/
def readEvents (n : Nat) : List REvent :=
  ((List.range n).map .spawn) ++ [.sDone, .closeCh] ++
  ((List.range n).map .wFetch) ++ ((List.range n).map .wSend)

/-- The happens-before edges imposed by the source's synchronisation. -/
def readHB (n : Nat) : List (REvent × REvent) :=
  ((List.range n).map fun i => (REvent.spawn i, REvent.sDone)) ++
  ((List.range n).map fun i => (REvent.spawn i, REvent.wFetch i)) ++
  ((List.range n).map fun i => (REvent.wFetch i, REvent.wSend i)) ++
  [(REvent.sDone, REvent.closeCh)]

/-- A schedule of the read operation: each event occurs exactly once and
every happens-before edge is respected. -/
def ValidReadSchedule (n : Nat) (s : List REvent) : Bool :=
  ((readEvents n).all fun e => s.count e == 1) &&
  (s.all fun e => (readEvents n).contains e) &&
  ((readHB n).all fun p => s.indexOf p.1 < s.indexOf p.2)

/-- A schedule of one hit in which the worker's send lands after the
channel close: `searchPages` drains its one search hit, spawns the worker
and returns; the close runs; only then does the worker fetch and send. -/
def lateSendSchedule : List REvent :=
  [.spawn 0, .sDone, .closeCh, .wFetch 0, .wSend 0]

/-! ### Interleaving model of the enrichment gate (claim C2)

`processPageConcurrently` builds its semaphore with
`semaphore := make(chan struct{}, ns.config.MaxConcurrent)` inside the
function body (notion.go line 260), so every worker call owns a distinct
gate: `gateOfPerCall i = i`.  Worker i's events are its acquisition
(line 261), the start and end of its detail fetch (line 278), and the
deferred release (line 262).  A schedule is valid when each event occurs
once, per-worker program order holds, and at every prefix each gate holds
at most `k` (its capacity) un-released acquisitions. -/
inductive PEvent where
  | acq (i : Nat)
  | fetchStart (i : Nat)
  | fetchEnd (i : Nat)
  | rel (i : Nat)
deriving DecidableEq, Repr

/-- The gate each worker call acquires in the source: its own fresh
channel. -/
def gateOfPerCall (i : Nat) : Nat := i

/-- Modelled from the spec: the gate the specification describes — one
counting semaphore shared by all enrichment workers. -/
def gateOfShared (_ : Nat) : Nat := 0

/-- All events of `n` page workers. -/
def workerEvents (n : Nat) : List PEvent :=
  ((List.range n).map .acq) ++ ((List.range n).map .fetchStart) ++
  ((List.range n).map .fetchEnd) ++ ((List.range n).map .rel)

/-- Acquisitions of gate `g` minus releases of gate `g` within `s`, under
gate assignment `gateOf`. -/
def gateHeld (gateOf : Nat → Nat) (g : Nat) (s : List PEvent) : Nat :=
  (s.countP fun e => match e with | .acq i => gateOf i == g | _ => false) -
  (s.countP fun e => match e with | .rel i => gateOf i == g | _ => false)

/-- A schedule of the `n` page workers under gate assignment `gateOf` with
gate capacity `k`: each event occurs once, program order
`acq i < fetchStart i < fetchEnd i < rel i` holds per worker, and no prefix
leaves any gate holding more than `k` acquisitions. -/
def ValidWorkerSchedule (gateOf : Nat → Nat) (k n : Nat)
    (s : List PEvent) : Bool :=
  ((workerEvents n).all fun e => s.count e == 1) &&
  (s.all fun e => (workerEvents n).contains e) &&
  ((List.range n).all fun i =>
    s.indexOf (.acq i) < s.indexOf (.fetchStart i) &&
    s.indexOf (.fetchStart i) < s.indexOf (.fetchEnd i) &&
    s.indexOf (.fetchEnd i) < s.indexOf (.rel i)) &&
  ((List.range (s.length + 1)).all fun t =>
    (List.range n).all fun i => gateHeld gateOf (gateOf i) (s.take t) ≤ k)

/-- Detail fetches in flight at position `t` of schedule `s`: workers whose
fetch has started strictly before `t` and not ended before `t`. -/
def inFlight (n : Nat) (s : List PEvent) (t : Nat) : Nat :=
  (List.range n).countP fun i =>
    s.indexOf (.fetchStart i) < t && t ≤ s.indexOf (.fetchEnd i)

/-- Two workers with capacity 1: both acquire (their own gates), both
fetches start, then both finish and release. -/
def overLimitSchedule : List PEvent :=
  [.acq 0, .acq 1, .fetchStart 0, .fetchStart 1, .fetchEnd 0, .rel 0,
   .fetchEnd 1, .rel 1]

/-! ### Event trace of one enrichment worker (claim C8)

The ordered events `processPageConcurrently` (notion.go lines 258-307)
emits on each control path, as a function of the branch outcomes.  The gate
release is registered with `defer func() { <-semaphore }()` right after
the acquisition, so on every path it runs when the function returns —
after the downstream sends, not right after the fetch. -/
inductive WEvent where
  | acquire
  | fetchStart
  | fetchEnd
  | sendItem
  | sendBlock
  | release
deriving DecidableEq, Repr

/-- Successful block sends of the block loop: one `sendBlock` per block
until a lost select ends the worker. -/
def blockSendEvents (blocks : Nat) (sendOks : List Bool) : List WEvent :=
  match blocks with
  | 0 => []
  | b + 1 =>
    if sendOks.getD 0 true then .sendBlock :: blockSendEvents b (sendOks.drop 1)
    else []

/-- The worker's event trace: acquire; if not cancelled, fetch; if the
fetch succeeded and the item send won its select, the item send and then
the block sends when blocks are included; in every case the deferred
release is the final event. -/
def workerTrace (cancelled fetchFails itemSendOk includeBlocks : Bool)
    (blocks : Nat) (blockSendOks : List Bool) : List WEvent :=
  [WEvent.acquire] ++
  (if cancelled then []
   else
     [WEvent.fetchStart, WEvent.fetchEnd] ++
     (if fetchFails then []
      else
        if itemSendOk then
          [WEvent.sendItem] ++
          (if includeBlocks && blocks != 0 then
            blockSendEvents blocks blockSendOks
          else [])
        else [])) ++
  [WEvent.release]

/-! ### The pipeline's blocking points and cancellation (claim C9) -/

/-- The four classes of blocking operations in the read pipeline. -/
inductive BlockPoint where
  | fetcherReceive
  | gateAcquire
  | channelSend
  | finalJoin
deriving DecidableEq, Repr

/-- Whether the source expresses the blocking point as a `select` with a
`ctx.Done()` alternative: the range over the fetcher's stream
(notion.go lines 244 and 323) is a plain receive; the gate acquisition
`semaphore <- struct{}{}` (line 261) is a plain send; the sends on
`results` (lines 288-293, 299-304, 331-336) select against `ctx.Done()`;
the final `wg.Wait()` (line 225) is a plain join. -/
def racesCancel : BlockPoint → Bool
  | .fetcherReceive => false
  | .gateAcquire => false
  | .channelSend => true
  | .finalJoin => false

/-- The pipeline's blocking points in pipeline order. -/
def pipelineBlockPoints : List BlockPoint :=
  [.fetcherReceive, .gateAcquire, .channelSend, .finalJoin]

/-! ### Claim theorems -/

/-- Claim C1: the claim that the output channel is closed only after every
worker that writes to it has finished writing fails on the code.  With one
page search hit, the schedule in which `searchPages` spawns the worker and
returns, the deferred `close(results)` runs, and only then the worker
fetches and sends, satisfies every happens-before edge the source's
synchronisation imposes — nothing joins the spawned page workers — and in
it the send on the channel comes after the close (in Go, a panic). -/
theorem c1_close_can_precede_send :
    ValidReadSchedule 1 lateSendSchedule = true ∧
    lateSendSchedule.indexOf REvent.closeCh <
      lateSendSchedule.indexOf (REvent.wSend 0) := by
  decide

/-- Claim C2: the claim that at most `MaxConcurrent` detail fetches are in
flight fails on the code.  Each `processPageConcurrently` call makes its
own semaphore, so with `MaxConcurrent = 1` and two page hits the schedule
in which both workers acquire their own gates and both fetches overlap is
valid under the code's per-call gate assignment — two fetches in flight —
while the same schedule would be invalid under the shared gate the claim
describes. -/
theorem c2_gate_limits_nothing :
    ValidWorkerSchedule gateOfPerCall 1 2 overLimitSchedule = true ∧
    inFlight 2 overLimitSchedule 4 = 2 ∧
    ValidWorkerSchedule gateOfShared 1 2 overLimitSchedule = false := by
  decide

/-- Claim C3: after any completed run, each per-kind counter advanced by
exactly the number of delivered items of its kind, the sum of the per-kind
counters advanced by the number of items delivered on the output channel,
`ObjectsRead` advanced by that same number, and an error increment changes
no success counter. -/
theorem c3_metrics_reconcile (cfg : NotionSourceConfig)
    (types : List ObjectType) (env : FetchEnv) (cancels : List Bool)
    (sendOracles : List (List Bool)) (dbSendOks : List Bool)
    (m : NotionSourceMetrics) :
    sumRead (readDataRun cfg types env cancels sendOracles dbSendOks m).1
      = sumRead m
        + (readDataRun cfg types env cancels sendOracles dbSendOks m).2.length ∧
    (readDataRun cfg types env cancels sendOracles dbSendOks m).1.objectsRead
      = m.objectsRead
        + (readDataRun cfg types env cancels sendOracles dbSendOks m).2.length ∧
    (readDataRun cfg types env cancels sendOracles dbSendOks m).1.pagesRead
      = m.pagesRead
        + countKind (readDataRun cfg types env cancels sendOracles dbSendOks m).2 .page ∧
    (readDataRun cfg types env cancels sendOracles dbSendOks m).1.blocksRead
      = m.blocksRead
        + countKind (readDataRun cfg types env cancels sendOracles dbSendOks m).2 .block ∧
    (readDataRun cfg types env cancels sendOracles dbSendOks m).1.commentsRead
      = m.commentsRead
        + countKind (readDataRun cfg types env cancels sendOracles dbSendOks m).2 .comment ∧
    (readDataRun cfg types env cancels sendOracles dbSendOks m).1.databasesRead
      = m.databasesRead
        + countKind (readDataRun cfg types env cancels sendOracles dbSendOks m).2 .database ∧
    (readDataRun cfg types env cancels sendOracles dbSendOks m).1.usersRead
      = m.usersRead
        + countKind (readDataRun cfg types env cancels sendOracles dbSendOks m).2 .user ∧
    (incrementErrorCount m).objectsRead = m.objectsRead ∧
    sumRead (incrementErrorCount m) = sumRead m := by
  have h := readDataRun_counters cfg types env cancels sendOracles dbSendOks m
  simp only [countersOK] at h
  refine ⟨h.2.2.2.2.2.2, h.2.2.2.2.2.1, h.1, h.2.1, h.2.2.1, h.2.2.2.1,
    h.2.2.2.2.1, ?_, ?_⟩
  · simp [incrementErrorCount]
  · simp [incrementErrorCount, sumRead]

/-- Claim C4: on an uncancelled run, every per-record failure — an error
result of the fetcher or a failed detail fetch — adds exactly one to
`ErrorsEncountered`, and only the failing record is skipped: the delivered
page and database items are exactly those of the successful records, so a
sequence mixing successes and errors still completes with every success
processed. -/
theorem c4_errors_counted_and_skipped (cfg : NotionSourceConfig)
    (env : FetchEnv) (types : List ObjectType) (m : NotionSourceMetrics) :
    (readDataRun cfg types env [] [] [] m).1.errorsEncountered
      = m.errorsEncountered + expectedErrors cfg env types ∧
    countKind (readDataRun cfg types env [] [] [] m).2 .page
      = expectedPageItems cfg env types ∧
    countKind (readDataRun cfg types env [] [] [] m).2 .database
      = expectedDbItems cfg env types := by
  have h := readDataRun_errors cfg env types m
  simpa only [errorsOK] using h

/-- Claim C5: `Read` succeeds exactly when a client is configured and every
requested kind is supported; on a validation failure it returns an error
value and no stream (the error branch runs before the channel is created
and before the background goroutine starts), otherwise a stream and no
error. -/
theorem c5_read_validates_first (ns : NotionSource) (req : ReadRequest) :
    (Read ns req).isOk = (ns.clientPresent && req.types.all supportsType) := by
  unfold Read Validate
  cases hc : ns.clientPresent with
  | false => rfl
  | true =>
    cases hf : req.types.find? (fun t => !supportsType t) with
    | some t =>
      have hst : supportsType t = false := by
        have h1 := List.find?_some hf
        simpa using h1
      have hall : req.types.all supportsType = false := by
        refine List.all_eq_false.mpr ⟨t, List.mem_of_find?_eq_some hf, ?_⟩
        simp [hst]
      simp only [hf, hall]
      rfl
    | none =>
      have hall : req.types.all supportsType = true := by
        refine List.all_eq_true.mpr fun t ht => ?_
        have h1 := List.find?_eq_none.mp hf t ht
        simpa using h1
      simp only [hf, hall]
      rfl

/-- Claim C6 counterexample: a `ReadRequest` naming no kind at all passes
validation and `Read` returns a stream and no error — the code never
checks that the request names at least one kind, so the claimed fail-fast
does not happen. -/
theorem c6_empty_request_accepted :
    Validate ⟨true, defaultNotionSourceConfig⟩ ⟨[]⟩ = none ∧
    Read ⟨true, defaultNotionSourceConfig⟩ ⟨[]⟩ = .ok 5000 := by
  exact ⟨rfl, rfl⟩

/-- Claim C6 (amended): a `ReadRequest` naming no kinds passes validation,
`Read` returns a stream and no error, and the operation completes at once,
launching no worker group and delivering no items. -/
theorem c6_empty_request_amended (cfg : NotionSourceConfig) (env : FetchEnv)
    (cancels : List Bool) (sendOracles : List (List Bool))
    (dbSendOks : List Bool) (m : NotionSourceMetrics) :
    Validate ⟨true, cfg⟩ ⟨[]⟩ = none ∧
    (Read ⟨true, cfg⟩ ⟨[]⟩).isOk = true ∧
    launchedGroups cfg [] = [] ∧
    readDataRun cfg [] env cancels sendOracles dbSendOks m = (m, []) := by
  exact ⟨rfl, rfl, rfl, rfl⟩

/-- Claim C7 counterexample: `updateEndTime` is not idempotent and the
first caller does not win — a second call at a later clock overwrites
`EndTime` and `TotalDuration` set by the first. -/
theorem c7_second_call_overwrites :
    updateEndTime (updateEndTime (newMetrics 0) 5) 9
      ≠ updateEndTime (newMetrics 0) 5 := by
  decide

/-- Claim C7 (amended): every `updateEndTime` call unconditionally stores
the current time in `EndTime` and recomputes `TotalDuration`; a later call
absorbs an earlier one, so the last caller wins — `EndTime` is set when
the stream's goroutine finishes and set again by any later `Close`. -/
theorem c7_last_caller_wins (m : NotionSourceMetrics) (t₁ t₂ : Nat) :
    updateEndTime (updateEndTime m t₁) t₂ = updateEndTime m t₂ ∧
    (updateEndTime m t₁).endTime = some t₁ ∧
    CloseSource (updateEndTime m t₁) t₂ = updateEndTime m t₂ := by
  exact ⟨rfl, rfl, rfl⟩

/-- Claim C8 counterexample: on the normal completion path the gate release
does not happen right after the detail fetch and before the downstream
sends — the deferred release is the worker's last event, after the item
and block sends. -/
theorem c8_release_not_before_sends :
    workerTrace false false true true 1 [] =
      [.acquire, .fetchStart, .fetchEnd, .sendItem, .sendBlock, .release] ∧
    ¬ ((workerTrace false false true true 1 []).indexOf WEvent.release <
        (workerTrace false false true true 1 []).indexOf WEvent.sendItem) := by
  decide

/-- Claim C8 (amended): on every exit path of the worker — cancellation
before the fetch, fetch failure, abandoned send, and normal completion —
the gate is acquired exactly once as the first step and released exactly
once as the last step of the worker, i.e. after the downstream sends rather
than immediately after the fetch. -/
theorem c8_release_once_per_path
    (cancelled fetchFails itemSendOk includeBlocks : Bool) (blocks : Nat)
    (blockSendOks : List Bool) :
    (workerTrace cancelled fetchFails itemSendOk includeBlocks blocks
      blockSendOks).count WEvent.acquire = 1 ∧
    (workerTrace cancelled fetchFails itemSendOk includeBlocks blocks
      blockSendOks).count WEvent.release = 1 ∧
    (workerTrace cancelled fetchFails itemSendOk includeBlocks blocks
      blockSendOks).head? = some WEvent.acquire ∧
    (workerTrace cancelled fetchFails itemSendOk includeBlocks blocks
      blockSendOks).getLast? = some WEvent.release := by
  have hacq : ∀ (b : Nat) (oks : List Bool),
      (blockSendEvents b oks).count WEvent.acquire = 0 := by
    intro b
    induction b with
    | zero => intro oks; rfl
    | succ n ih =>
      intro oks
      simp only [blockSendEvents]
      split
      · simp [ih]
      · rfl
  have hrel : ∀ (b : Nat) (oks : List Bool),
      (blockSendEvents b oks).count WEvent.release = 0 := by
    intro b
    induction b with
    | zero => intro oks; rfl
    | succ n ih =>
      intro oks
      simp only [blockSendEvents]
      split
      · simp [ih]
      · rfl
  refine ⟨?_, ?_, ?_, ?_⟩
  · cases cancelled <;> cases fetchFails <;> cases itemSendOk <;>
      cases includeBlocks <;> cases blocks <;>
      simp [workerTrace, hacq]
  · cases cancelled <;> cases fetchFails <;> cases itemSendOk <;>
      cases includeBlocks <;> cases blocks <;>
      simp [workerTrace, hrel]
  · rfl
  · unfold workerTrace
    rw [List.getLast?_concat]

/-- Claim C9 counterexample: not every blocking point of the pipeline races
against cancellation — the gate acquisition (and likewise the fetcher
receive and the final join) is a plain blocking operation with no
`ctx.Done()` alternative. -/
theorem c9_gate_acquire_blocks_plainly :
    BlockPoint.gateAcquire ∈ pipelineBlockPoints ∧
    racesCancel .gateAcquire = false ∧
    pipelineBlockPoints.all racesCancel = false := by
  decide

/-- Claim C9 (amended): only the channel sends race cancellation; a
non-blocking cancellation check precedes each detail fetch, so a worker
that observes cancellation before its fetch dispatches no fetch and
touches no counter; an abandoned send increments no success counter and
ends its worker or group loop; the fetcher receive, gate acquisition and
final join block without a cancellation alternative. -/
theorem c9_cancellation_effects (cfg : NotionSourceConfig)
    (detail : Page → GoResult GetPageResult) (sendOks : List Bool) (p : Page)
    (d : GetPageResult) (m : NotionSourceMetrics)
    (rest : List (GoResult SearchData)) (db : Database) :
    pipelineBlockPoints.filter racesCancel = [.channelSend] ∧
    processPageRun cfg detail true sendOks p m = (m, []) ∧
    processPageRun cfg (fun _ => .ok d) false [false] p m
      = (incrementRequestCount m, []) ∧
    readDatabasesLoop (.ok ⟨none, some db⟩ :: rest) [false] m = (m, []) := by
  exact ⟨rfl, rfl, rfl, rfl⟩

/-- Claim C10: a worker group is launched exactly for the kinds that are
both requested and enabled, and only `page` and `database` ever launch
one; a request naming only `block`, `comment` and `user` validates with no
error yet launches nothing and delivers nothing, and so does a
page/database request when the corresponding Include flags are off. -/
theorem c10_groups_requested_and_enabled (cfg : NotionSourceConfig)
    (types : List ObjectType) (t : ObjectType) (env : FetchEnv)
    (cancels : List Bool) (sendOracles : List (List Bool))
    (dbSendOks : List Bool) (m : NotionSourceMetrics) :
    (t ∈ launchedGroups cfg types ↔
      (t ∈ types ∧ ((t = .page ∧ cfg.includePages = true) ∨
        (t = .database ∧ cfg.includeDatabases = true)))) ∧
    Validate ⟨true, cfg⟩ ⟨[.block, .comment, .user]⟩ = none ∧
    launchedGroups cfg [.block, .comment, .user] = [] ∧
    readDataRun cfg [.block, .comment, .user] env cancels sendOracles
      dbSendOks m = (m, []) ∧
    readDataRun { cfg with includePages := false, includeDatabases := false }
      [.page, .database] env cancels sendOracles dbSendOks m = (m, []) := by
  refine ⟨?_, rfl, rfl, rfl, rfl⟩
  simp only [launchedGroups, List.mem_filter]
  cases t <;> simp

end NotionSpec
